import Mathlib

/-!
Verification development for the AI quiz application
(frontend `QuizGenerator.jsx` normalization pipeline and
backend `server.js` REST handlers over the relational store).

Part 1: a small model of untyped JavaScript values, as they appear in the
payloads the normalizer and the backend validate (booleans, strings,
integer numbers, null, undefined, arrays).
-/

namespace QuizApp

/-- Untyped JavaScript value, restricted to the shapes that occur in the
quiz payloads (numbers are integers in this application). -/
inductive JSVal where
  | bool (b : Bool)
  | str (s : String)
  | num (n : Int)
  | null
  | undef
  | arr (xs : List JSVal)

namespace JSVal

mutual

/-- JavaScript `String(v)` on the values of our model. -/
def jsToString : JSVal → String
  | .bool true => "true"
  | .bool false => "false"
  | .str s => s
  | .num n => toString n
  | .null => "null"
  | .undef => "undefined"
  | .arr xs => jsToStringArr xs

/-- JavaScript array-to-string: elements joined with `,`. -/
def jsToStringArr : List JSVal → String
  | [] => ""
  | [x] => jsToString x
  | x :: y :: xs => jsToString x ++ "," ++ jsToStringArr (y :: xs)

end

/-- JavaScript truthiness on the values of our model
(`false`, `""`, `0`, `null`, `undefined` are falsy). -/
def jsTruthy : JSVal → Bool
  | .bool b => b
  | .str s => s ≠ ""
  | .num n => n ≠ 0
  | .null => false
  | .undef => false
  | .arr _ => true

end JSVal

/-- JavaScript `s.trim()`: drop whitespace from both ends. -/
def jsTrim (s : String) : String :=
  ⟨((s.data.dropWhile Char.isWhitespace).reverse.dropWhile Char.isWhitespace).reverse⟩

/-- JavaScript `s.endsWith(suffix)`. -/
def strEndsWith (s suffix : String) : Bool :=
  s.data.drop (s.data.length - suffix.data.length) == suffix.data

/-- JavaScript `s.toLowerCase()` (ASCII). -/
def strToLower (s : String) : String :=
  ⟨s.data.map Char.toLower⟩

/-- Value of a non-empty digit string (decimal). -/
def digitsValue (ds : List Char) : Nat :=
  ds.foldl (fun acc c => acc * 10 + (c.toNat - '0'.toNat)) 0

/-- JavaScript `parseInt(s, 10)`: skip leading whitespace, optional sign,
then the longest prefix of decimal digits; `NaN` (modelled as `none`)
when that prefix is empty. -/
def parseIntJS (s : String) : Option Int :=
  let cs := s.data.dropWhile Char.isWhitespace
  let core : List Char → Option Nat := fun l =>
    let ds := l.takeWhile Char.isDigit
    if ds.isEmpty then none else some (digitsValue ds)
  match cs with
  | '-' :: rest => (core rest).map (fun n => -(n : Int))
  | '+' :: rest => (core rest).map (fun n => (n : Int))
  | _ => (core cs).map (fun n => (n : Int))

/-- Whether a character list contains an occurrence of `___`
(JavaScript `s.includes("___")`). -/
def hasBlank : List Char → Bool
  | '_' :: '_' :: '_' :: _ => true
  | _ :: rest => hasBlank rest
  | [] => false

/-- Number of non-overlapping occurrences of `___`, scanning left to
right (JavaScript `(s.match(/___/g) || []).length`). -/
def countBlanks : List Char → Nat
  | '_' :: '_' :: '_' :: rest => countBlanks rest + 1
  | _ :: rest => countBlanks rest
  | [] => 0

/-!
Part 2: the Quiz Data Normalizer of `QuizGenerator.jsx`
(`validateAndParseQuizData`) and the pre-save formatting pass
(`formatQuizQuestions`).
-/

/-- A raw question object of the model-produced batch: all four fields are
untyped JavaScript values (`undef` models an absent field). -/
structure RawQuestion where
  question : JSVal
  correctAnswer : JSVal
  explanation : JSVal
  options : JSVal

/-- A question object after the per-question mutation performed by
`validateAndParseQuizData` (and also the shape produced by
`formatQuizQuestions`): the prompt is a string, the explanation is a
string, `options = none` models a deleted/never-assigned options field,
and the correct answer stays an untyped value (the normalizer stores a
number in it, `formatQuizQuestions` reads it back untyped). -/
structure NormQuestion where
  question : String
  correctAnswer : JSVal
  explanation : String
  options : Option (List String)

/-- The `question.correctAnswer === undefined || question.correctAnswer
=== null` test of `validateAndParseQuizData`. -/
def isMissingAnswerVal : JSVal → Bool
  | .undef => true
  | .null => true
  | _ => false

/-- The explanation defaulting of `validateAndParseQuizData`: keep a
string value, anything else (or a missing/empty value) becomes `""`. -/
def explanationOf : JSVal → String
  | .str e => e
  | _ => ""

/-- The True/False prompt cleanup: trim, and append `.` when the trimmed
prompt ends with neither `?` nor `.`. -/
def tfText (s : String) : String :=
  let t := jsTrim s
  if !strEndsWith t "?" && !strEndsWith t "." then t ++ "." else t

/-- The True/False answer coercion appearing both in
`validateAndParseQuizData` and in `formatQuizQuestions`: a boolean is used
directly, anything else is truthy iff its string form lowercases to
`"true"` or equals `"1"`. -/
def jsTruthyTF : JSVal → Bool
  | .bool b => b
  | v => (strToLower (JSVal.jsToString v) == "true") || (JSVal.jsToString v == "1")

/-- The body of the `data.forEach((question, index) => ...)` callback of
`validateAndParseQuizData`: validates and canonicalizes one raw question,
or fails with the thrown error message. -/
def validateQuestion (questionType : String) (index : Nat) (q : RawQuestion) :
    Except String NormQuestion :=
  let questionNum := index + 1
  match q.question with
  | .str s =>
    if jsTrim s = "" then
      .error s!"Question {questionNum} is missing or has invalid question text"
    else if isMissingAnswerVal q.correctAnswer then
      .error s!"Question {questionNum} is missing the correct answer"
    else
      let explanation := explanationOf q.explanation
      if questionType = "True/False" then
        .ok ⟨tfText s, .num (if jsTruthyTF q.correctAnswer then 0 else 1),
             explanation, none⟩
      else
        match q.options with
        | .arr opts0 =>
          if opts0.length ≠ 4 then
            .error s!"Question {questionNum} must have exactly 4 options"
          else
            let options := opts0.map (fun opt => jsTrim (JSVal.jsToString opt))
            if options.any (fun opt => opt == "") then
              .error s!"Question {questionNum} has empty options"
            else if ¬ options.Nodup then
              .error s!"Question {questionNum} has duplicate options"
            else if questionType = "Fill in the Blanks" && !hasBlank s.data then
              .error s!"Question {questionNum} must contain ___ to indicate the blank"
            else if questionType = "Fill in the Blanks" && countBlanks s.data > 1 then
              .error s!"Question {questionNum} should have only one blank (___)"
            else
              match parseIntJS (JSVal.jsToString q.correctAnswer) with
              | none =>
                .error s!"Question {questionNum} has invalid correct answer index. Must be 0-3"
              | some answerIndex =>
                if answerIndex < 0 ∨ answerIndex > 3 then
                  .error s!"Question {questionNum} has invalid correct answer index. Must be 0-3"
                else
                  .ok ⟨s, .num answerIndex, explanation, some options⟩
        | _ => .error s!"Question {questionNum} is missing options array"
  | _ => .error s!"Question {questionNum} is missing or has invalid question text"

/-- The `data.forEach` loop of `validateAndParseQuizData`: the thrown error
of the first offending question aborts the whole batch. -/
def validateQuestions (questionType : String) :
    Nat → List RawQuestion → Except String (List NormQuestion)
  | _, [] => .ok []
  | index, q :: rest =>
    match validateQuestion questionType index q with
    | .error e => .error e
    | .ok v =>
      match validateQuestions questionType (index + 1) rest with
      | .error e => .error e
      | .ok vs => .ok (v :: vs)

/-- The `try`-block of `validateAndParseQuizData`: length check against the
configured `numQuestions`, then the per-question loop. -/
def validateAndParseQuizDataE (questionType : String) (numQuestions : Nat)
    (data : List RawQuestion) : Except String (List NormQuestion) :=
  if data.length ≠ numQuestions then
    .error "Invalid quiz format - questions array mismatch"
  else
    validateQuestions questionType 0 data

/-- `validateAndParseQuizData` of `QuizGenerator.jsx`: the surrounding
`catch` logs the thrown error and returns `null` (modelled as `none`). -/
def validateAndParseQuizData (questionType : String) (numQuestions : Nat)
    (data : List RawQuestion) : Option (List NormQuestion) :=
  (validateAndParseQuizDataE questionType numQuestions data).toOption

/-- The body of the `quizData.map` callback of `formatQuizQuestions`
(applied by `saveQuiz` to the normalizer's output before persisting). -/
def formatQuizQuestion (questionType : String) (q : NormQuestion) :
    Except String NormQuestion :=
  if questionType = "True/False" then
    .ok ⟨q.question, .num (if jsTruthyTF q.correctAnswer then 0 else 1),
         q.explanation, some ["True", "False"]⟩
  else if questionType = "Fill in the Blanks" ∨ questionType = "MCQ" then
    match parseIntJS (JSVal.jsToString q.correctAnswer) with
    | none => .error "Invalid answer index for MCQ/Fill in the Blanks question"
    | some answerIndex =>
      match q.options with
      | some opts =>
        if opts.length ≠ 4 then
          .error "Question must have exactly 4 options"
        else
          .ok ⟨q.question, .num answerIndex, q.explanation, some opts⟩
      | none => .error "Question must have exactly 4 options"
  else
    .ok ⟨q.question, .undef, q.explanation, none⟩

/-- `formatQuizQuestions` of `QuizGenerator.jsx`. -/
def formatQuizQuestions (quizData : List NormQuestion) (questionType : String) :
    Except String (List NormQuestion) :=
  match quizData with
  | [] => .ok []
  | q :: rest =>
    match formatQuizQuestion questionType q with
    | .error e => .error e
    | .ok v =>
      match formatQuizQuestions rest questionType with
      | .error e => .error e
      | .ok vs => .ok (v :: vs)

/-!
Part 3: the backend `server.js` — request schemas (Joi), database state,
and the REST handlers the claims refer to. Responses are modelled by their
HTTP status and payload; the database by explicit state passing.
-/

/-- One question of a `POST /api/quizzes` body, as typed by
`quizSchema.questions.items`. -/
structure QuestionReq where
  question : String
  correctAnswer : JSVal
  explanation : JSVal
  options : List String

/-- Body of `POST /api/quizzes` (`quizSchema`); `none` models an absent
optional field. -/
structure QuizReq where
  title : String
  topic : Option String
  numQuestions : Int
  difficulty : String
  questionType : String
  language : Option String
  questions : List QuestionReq

/-- The `difficulty` enumeration of the schemas. -/
def difficultyValues : List String := ["Easy", "Medium", "Hard"]

/-- The `questionType` enumeration of the schemas. -/
def questionTypeValues : List String := ["MCQ", "True/False", "Fill in the Blanks"]

/-- The `language` enumeration of the schemas. -/
def languageValues : List String :=
  ["english", "hindi", "spanish", "french", "german", "chinese", "japanese",
   "korean", "arabic"]

/-- Joi validation of one element of `quizSchema.questions`: `question` a
required non-empty string; `correctAnswer` a non-empty string, number or
boolean; `explanation` a string (empty and `null` allowed) or absent;
`options` an array of at least 2 non-empty strings. -/
def questionReqValid (q : QuestionReq) : Bool :=
  q.question != "" &&
  (match q.correctAnswer with
    | .str s => s != ""
    | .num _ => true
    | .bool _ => true
    | _ => false) &&
  (match q.explanation with
    | .str _ => true
    | .null => true
    | .undef => true
    | _ => false) &&
  decide (2 ≤ q.options.length) &&
  q.options.all (fun o => o != "")

/-- Joi validation `quizSchema.validate` (the handler first defaults a
missing `language` to `"english"`). -/
def quizSchemaValid (r : QuizReq) : Bool :=
  jsTrim r.title != "" && decide ((jsTrim r.title).length ≤ 255) &&
  (match r.topic with
    | some t => jsTrim t != "" && decide ((jsTrim t).length ≤ 255)
    | none => true) &&
  decide (1 ≤ r.numQuestions) &&
  difficultyValues.contains r.difficulty &&
  questionTypeValues.contains r.questionType &&
  languageValues.contains (r.language.getD "english") &&
  decide (1 ≤ r.questions.length) &&
  r.questions.all questionReqValid

/-- One element of `quizResultSchema.userAnswers`. -/
structure AnswerRecord where
  questionIndex : Int
  answer : JSVal
  correct : Bool

/-- Body of `POST /api/quiz-results` (`quizResultSchema`). -/
structure QuizResultReq where
  quizId : Int
  score : Int
  totalQuestions : Int
  userAnswers : List AnswerRecord
  timeTaken : Int

/-- Joi validation `quizResultSchema.validate`: `score ≥ 0`,
`totalQuestions ≥ 1`, `timeTaken ≥ 0`, each answer a non-empty string,
number, boolean or `null`. -/
def quizResultSchemaValid (r : QuizResultReq) : Bool :=
  decide (0 ≤ r.score) && decide (1 ≤ r.totalQuestions) &&
  decide (0 ≤ r.timeTaken) &&
  r.userAnswers.all (fun a =>
    match a.answer with
    | .str s => s != ""
    | .num _ => true
    | .bool _ => true
    | .null => true
    | _ => false)

/-- `generationParameters` of `quizHistorySchema`. -/
structure GenerationParameters where
  topic : String
  difficulty : String
  numQuestions : Int
  questionType : String
  language : Option String

/-- Body of `POST /api/quiz-history` (`quizHistorySchema`). -/
structure QuizHistoryReq where
  quizId : Int
  promptUsed : String
  generationParameters : GenerationParameters

/-- Joi validation of `quizHistorySchema.generationParameters`. -/
def generationParametersValid (g : GenerationParameters) : Bool :=
  g.topic != "" &&
  difficultyValues.contains g.difficulty &&
  decide (1 ≤ g.numQuestions) &&
  questionTypeValues.contains g.questionType &&
  languageValues.contains (g.language.getD "english")

/-- Joi validation `quizHistorySchema.validate`. -/
def quizHistorySchemaValid (h : QuizHistoryReq) : Bool :=
  h.promptUsed != "" && generationParametersValid h.generationParameters

/-- A row of the `quizzes` table. -/
structure QuizRow where
  id : Nat
  userId : String
  title : String
  topic : Option String
  numQuestions : Int
  difficulty : String
  questionType : String
  language : String
  questions : List QuestionReq
  createdAt : Nat

/-- A row of the `quiz_results` table. -/
structure ResultRow where
  id : Nat
  userId : String
  quizId : Int
  score : Int
  totalQuestions : Int
  userAnswers : List AnswerRecord
  timeTaken : Int
  completedAt : Nat

/-- A row of the `quiz_history` table. -/
structure HistoryRow where
  id : Nat
  userId : String
  quizId : Int
  promptUsed : String
  generationParameters : GenerationParameters

/-- The relational store: the three tables plus the `SERIAL` id counters. -/
structure DB where
  quizzes : List QuizRow
  quizResults : List ResultRow
  quizHistory : List HistoryRow
  nextQuizId : Nat
  nextResultId : Nat
  nextHistoryId : Nat

/-- `POST /api/quizzes`: Joi validation, the explicit emptiness,
`numQuestions`-vs-length and MCQ-options re-checks, then the single
`INSERT INTO quizzes`. Returns the HTTP status with the created quiz id
(on 201) and the resulting store. -/
def createQuiz (userId : String) (body : QuizReq) (now : Nat) (db : DB) :
    (Nat × Option Nat) × DB :=
  if quizSchemaValid body then
    if body.questions.length = 0 then ((400, none), db)
    else if body.numQuestions ≠ (body.questions.length : Int) then ((400, none), db)
    else if body.questionType == "MCQ" &&
        body.questions.any (fun q => decide (q.options.length < 2)) then
      ((400, none), db)
    else
      let row : QuizRow :=
        ⟨db.nextQuizId, userId, jsTrim body.title, body.topic.map (fun t => jsTrim t),
         body.numQuestions, body.difficulty, body.questionType,
         body.language.getD "english", body.questions, now⟩
      ((201, some row.id),
       { db with quizzes := db.quizzes ++ [row], nextQuizId := db.nextQuizId + 1 })
  else ((400, none), db)

/-- Insert into a list kept sorted by a numeric key, descending. -/
def insertDescBy {α : Type} (key : α → Nat) (x : α) : List α → List α
  | [] => [x]
  | y :: ys => if key y ≤ key x then x :: y :: ys else y :: insertDescBy key x ys

/-- Sort a list by a numeric key, descending (`ORDER BY key DESC`). -/
def sortDescBy {α : Type} (key : α → Nat) : List α → List α
  | [] => []
  | x :: xs => insertDescBy key x (sortDescBy key xs)

/-- One row of the `GET /api/quizzes` page: the quiz's columns plus the
aggregate join against `quiz_results` scoped to the same owner. -/
structure ListedQuiz where
  row : QuizRow
  attemptsCount : Nat
  highestScore : Int

/-- `MAX(score)` with `COALESCE`/`|| 0` semantics: 0 on an empty list. -/
def maxOrZero : List Int → Int
  | [] => 0
  | x :: xs => xs.foldl max x

/-- The aggregate join of the `GET /api/quizzes` query for one quiz:
`COUNT(qr.id)` and `MAX(qr.score)` over results with
`qr.quiz_id = q.id AND qr.user_id = q.user_id`. -/
def annotateQuiz (db : DB) (q : QuizRow) : ListedQuiz :=
  let rs := db.quizResults.filter
    (fun r => r.quizId == (q.id : Int) && r.userId == q.userId)
  ⟨q, rs.length, maxOrZero (rs.map (fun r => r.score))⟩

/-- Response of `GET /api/quizzes`. -/
structure ListResp where
  quizzes : List ListedQuiz
  currentPage : Nat
  totalPages : Nat
  totalQuizzes : Nat
  hasMore : Bool

/-- `GET /api/quizzes`: the caller's quizzes ordered by `created_at DESC`,
`LIMIT limit OFFSET (page-1)*limit`, with
`totalPages = Math.ceil(totalQuizzes / limit)` and
`hasMore = page < totalPages`. -/
def listQuizzes (userId : String) (page limit : Nat) (db : DB) : ListResp :=
  let offset := (page - 1) * limit
  let mine := db.quizzes.filter (fun q => q.userId == userId)
  let sorted := sortDescBy (fun q => q.createdAt) mine
  let pageRows := (sorted.drop offset).take limit
  let totalQuizzes := mine.length
  -- Math.ceil(totalQuizzes / limit), in integers (equal for limit ≥ 1)
  let totalPages := (totalQuizzes + limit - 1) / limit
  ⟨pageRows.map (annotateQuiz db), page, totalPages, totalQuizzes,
   decide (page < totalPages)⟩

/-- One entry of the `jsonb_agg` of the `/take` query: prompt and options
only (answer and explanation withheld). -/
structure TakeQuestion where
  question : String
  options : List String

/-- Response body of `GET /api/quizzes/:id/take` on the found path. -/
structure TakeResp where
  id : Nat
  title : String
  topic : Option String
  numQuestions : Int
  difficulty : String
  questionType : String
  questions : List TakeQuestion

/-- `GET /api/quizzes/:id/take`: `SELECT ... FROM quizzes WHERE id = $1` —
the query has no `user_id` condition; `none` models the empty-result path
(which the handler turns into an error response). -/
def takeQuiz (userId : String) (quizId : Nat) (db : DB) : Option TakeResp :=
  match db.quizzes.find? (fun q => q.id == quizId) with
  | some q =>
    some ⟨q.id, q.title, q.topic, q.numQuestions, q.difficulty, q.questionType,
          q.questions.map (fun x => ⟨x.question, x.options⟩)⟩
  | none => none

/-- One question of the `GET /api/quizzes/:id` response:
`explanation: q.explanation || "No explanation provided"`. -/
structure DetailQuestion where
  question : String
  options : List String
  correctAnswer : JSVal
  explanation : JSVal

/-- One `attempt_history` entry of the detail response. -/
structure AttemptRecord where
  score : Int
  totalQuestions : Int
  timeTaken : Int
  completedAt : Nat

/-- Response body of `GET /api/quizzes/:id` on the found path. -/
structure DetailResp where
  id : Nat
  topic : Option String
  title : String
  difficulty : String
  questionType : String
  numQuestions : Int
  createdAt : Nat
  highestScore : Int
  attemptsCount : Nat
  questions : List DetailQuestion
  attemptHistory : List AttemptRecord

/-- `GET /api/quizzes/:id`: the lookup is `WHERE q.id = $1 AND
q.user_id = $2`, so `none` (the 404 path) covers both absence and
ownership mismatch; on success the stored questions are mapped with the
`"No explanation provided"` defaulting and the attempt history is joined,
ordered by `completed_at DESC`. -/
def getQuizDetail (userId : String) (quizId : Nat) (db : DB) : Option DetailResp :=
  match db.quizzes.find? (fun q => q.id == quizId && q.userId == userId) with
  | none => none
  | some q =>
    let attempts := db.quizResults.filter
      (fun r => r.quizId == (q.id : Int) && r.userId == userId)
    some ⟨q.id, q.topic, q.title, q.difficulty, q.questionType, q.numQuestions,
      q.createdAt,
      maxOrZero (attempts.map (fun r => r.score)),
      attempts.length,
      q.questions.map (fun x =>
        ⟨x.question, x.options, x.correctAnswer,
         if JSVal.jsTruthy x.explanation then x.explanation
         else .str "No explanation provided"⟩),
      (sortDescBy (fun r => r.completedAt) attempts).map
        (fun r => ⟨r.score, r.totalQuestions, r.timeTaken, r.completedAt⟩)⟩

/-- `POST /api/quiz-results`: Joi validation, the `quizCheck` existence
query (`SELECT id FROM quizzes WHERE id = $1`, no `user_id` condition),
then `BEGIN`, the single `INSERT INTO quiz_results`, `COMMIT`; the
`insertFails` flag injects a database failure inside the transaction, in
which case the `ROLLBACK` of the `catch` leaves the store unchanged. -/
def recordResult (userId : String) (body : QuizResultReq) (now : Nat)
    (insertFails : Bool) (db : DB) : Nat × DB :=
  if quizResultSchemaValid body then
    if db.quizzes.any (fun q => (q.id : Int) == body.quizId) then
      if insertFails then (500, db)
      else
        let row : ResultRow :=
          ⟨db.nextResultId, userId, body.quizId, body.score, body.totalQuestions,
           body.userAnswers, body.timeTaken, now⟩
        (201, { db with quizResults := db.quizResults ++ [row],
                        nextResultId := db.nextResultId + 1 })
    else (400, db)
  else (400, db)

/-- `POST /api/quiz-history`: same structure as `recordResult` over the
`quiz_history` table. -/
def recordHistory (userId : String) (body : QuizHistoryReq)
    (insertFails : Bool) (db : DB) : Nat × DB :=
  if quizHistorySchemaValid body then
    if db.quizzes.any (fun q => (q.id : Int) == body.quizId) then
      if insertFails then (500, db)
      else
        let row : HistoryRow :=
          ⟨db.nextHistoryId, userId, body.quizId, body.promptUsed,
           body.generationParameters⟩
        (201, { db with quizHistory := db.quizHistory ++ [row],
                        nextHistoryId := db.nextHistoryId + 1 })
    else (400, db)
  else (400, db)

/-- JavaScript `Set` built from a list: first occurrences, in order. -/
def jsSetOf {α : Type} [BEq α] (l : List α) : List α :=
  l.foldl (fun acc a => if acc.contains a then acc else acc ++ [a]) []

/-- `processQuizStatistics` of `server.js`: rows are `(topic, difficulty)`
pairs; truthy values are collected into sets and comma-joined, an empty
join yielding the literal `"None"`. -/
def processQuizStatistics (rows : List (Option String × String)) :
    String × String :=
  let topics := jsSetOf (((rows.filterMap Prod.fst)).filter (fun t => t != ""))
  let diffs := jsSetOf ((rows.map Prod.snd).filter (fun d => d != ""))
  let tj := String.intercalate ", " topics
  let dj := String.intercalate ", " diffs
  (if tj = "" then "None" else tj, if dj = "" then "None" else dj)

/-- `score::float / total_questions * 100` with zero-question totals
treated as zero (the `CASE WHEN total_questions > 0` guard). -/
def scorePct (score totalQuestions : Int) : ℚ :=
  if 0 < totalQuestions then (score : ℚ) / (totalQuestions : ℚ) * 100 else 0

/-- `DATE_TRUNC('month', completed_at)` abstracted: timestamps are encoded
with two trailing sub-month digits, so truncation is division by 100. -/
def monthOf (t : Nat) : Nat := t / 100

/-- `MAX`/`MIN` over a possibly empty column (`NULL` as `none`). -/
def maxNat : List Nat → Option Nat
  | [] => none
  | x :: xs => some (xs.foldl max x)

/-- See `maxNat`. -/
def minNat : List Nat → Option Nat
  | [] => none
  | x :: xs => some (xs.foldl min x)

/-- One `monthly_progress` entry of `GET /api/statistics`. -/
structure MonthlyStat where
  month : Nat
  attempts : Nat
  averageScore : ℚ

/-- The `statistics` object of the `GET /api/statistics` response. -/
structure StatisticsResp where
  totalQuizzesTaken : Nat
  totalAttempts : Nat
  averageScore : ℚ
  highestScore : Int
  firstAttempt : Option Nat
  lastAttempt : Option Nat
  topicsAttempted : String
  difficultyLevelsAttempted : String
  monthlyProgress : List MonthlyStat

/-- `GET /api/statistics`: the overall aggregate over the caller's
results, the topic/difficulty sets over the caller's quizzes having at
least one result, and the monthly series (most recent 12 month buckets,
descending). -/
def getStatistics (userId : String) (db : DB) : StatisticsResp :=
  let rs := db.quizResults.filter (fun r => r.userId == userId)
  let averageScore : ℚ :=
    if rs.isEmpty then 0
    else ((rs.map (fun r => scorePct r.score r.totalQuestions)).sum) / (rs.length : ℚ)
  let quizRows := db.quizzes.filter (fun q =>
    q.userId == userId && rs.any (fun r => r.quizId == (q.id : Int)))
  let stats := processQuizStatistics (quizRows.map (fun q => (q.topic, q.difficulty)))
  let months := (sortDescBy (fun m => m) (jsSetOf (rs.map (fun r => monthOf r.completedAt)))).take 12
  let monthly := months.map (fun m =>
    let bucket := rs.filter (fun r => monthOf r.completedAt == m)
    let avg : ℚ :=
      if bucket.isEmpty then 0
      else ((bucket.map (fun r => scorePct r.score r.totalQuestions)).sum) / (bucket.length : ℚ)
    MonthlyStat.mk m bucket.length avg)
  ⟨(jsSetOf (rs.map (fun r => r.quizId))).length,
   rs.length,
   averageScore,
   maxOrZero (rs.map (fun r => r.score)),
   minNat (rs.map (fun r => r.completedAt)),
   maxNat (rs.map (fun r => r.completedAt)),
   stats.1, stats.2, monthly⟩

/-!
Part 4: helper lemmas.
-/

/-- A prompt containing a blank marker has a positive blank count. -/
theorem countBlanks_pos (l : List Char) (h : hasBlank l = true) : 0 < countBlanks l := by
  induction l using hasBlank.induct with
  | case1 rest => simp [countBlanks]
  | case2 c rest hne ih =>
      rw [hasBlank] at h
      · rw [countBlanks]
        · exact ih h
        · exact hne
      · exact hne
  | case3 => simp [hasBlank] at h

/-- Evaluation of `validateQuestion` on the True/False branch: with a
valid prompt string and a present answer it always succeeds, producing
the cleaned prompt, the coerced answer index, the defaulted explanation,
and no options field. -/
theorem validateQuestion_tf_eq (idx : Nat) (s : String) (ca ex op : JSVal)
    (hs : jsTrim s ≠ "") (hca : isMissingAnswerVal ca = false) :
    validateQuestion "True/False" idx ⟨.str s, ca, ex, op⟩ =
      .ok ⟨tfText s, .num (if jsTruthyTF ca then 0 else 1), explanationOf ex, none⟩ := by
  simp only [validateQuestion, if_neg hs, hca]
  simp

/-- Any True/False question accepted by the normalizer carries answer
index 0 or 1. -/
theorem validateQuestion_tf_ok_answer (idx : Nat) (q : RawQuestion) (out : NormQuestion)
    (h : validateQuestion "True/False" idx q = .ok out) :
    out.correctAnswer = .num 0 ∨ out.correctAnswer = .num 1 := by
  obtain ⟨qq, ca, ex, op⟩ := q
  cases qq with
  | str s =>
    by_cases hs : jsTrim s = ""
    · simp [validateQuestion, hs] at h
    · by_cases hca : isMissingAnswerVal ca = true
      · simp [validateQuestion, hs, hca] at h
      · rw [validateQuestion_tf_eq idx s ca ex op hs (by simpa using hca)] at h
        injection h with h
        subst h
        cases hb : jsTruthyTF ca <;> simp [hb]
  | bool b => simp [validateQuestion] at h
  | num n => simp [validateQuestion] at h
  | null => simp [validateQuestion] at h
  | undef => simp [validateQuestion] at h
  | arr xs => simp [validateQuestion] at h

/-- Batch version of `validateQuestion_tf_ok_answer`. -/
theorem validateQuestions_tf_answers (data : List RawQuestion) :
    ∀ (k : Nat) (qs : List NormQuestion),
    validateQuestions "True/False" k data = .ok qs →
    ∀ out ∈ qs, out.correctAnswer = .num 0 ∨ out.correctAnswer = .num 1 := by
  induction data with
  | nil =>
    intro k qs h out ho
    simp only [validateQuestions] at h
    injection h with h
    subst h
    simp at ho
  | cons q rest ih =>
    intro k qs h out ho
    simp only [validateQuestions] at h
    cases hv : validateQuestion "True/False" k q with
    | error e => rw [hv] at h; exact absurd h (by simp)
    | ok v =>
      rw [hv] at h
      cases hr : validateQuestions "True/False" (k + 1) rest with
      | error e => rw [hr] at h; exact absurd h (by simp)
      | ok vs =>
        rw [hr] at h
        injection h with h
        subst h
        rcases List.mem_cons.mp ho with rfl | hmem
        · exact validateQuestion_tf_ok_answer k q out hv
        · exact ih (k + 1) vs hr out hmem

/-- `formatQuizQuestions` never fails on True/False batches: it re-coerces
every answer and attaches the fixed option pair. -/
theorem formatQuizQuestions_tf_eq (qs : List NormQuestion) :
    formatQuizQuestions qs "True/False" =
      .ok (qs.map (fun q =>
        ⟨q.question, .num (if jsTruthyTF q.correctAnswer then 0 else 1),
         q.explanation, some ["True", "False"]⟩)) := by
  induction qs with
  | nil => rfl
  | cons q rest ih =>
    simp only [formatQuizQuestions, formatQuizQuestion, List.map_cons, ih]
    simp

/-!
Part 5: the claims.
-/

/-- The truthy class named by claim C2: `true`, `"true"`
(case-insensitively), `"1"`, or `1`. -/
def tfTruthySpec : JSVal → Bool
  | .bool b => b
  | .str s => strToLower s == "true" || s == "1"
  | .num n => n == 1
  | _ => false

/-- C2 counterexample: the claim states that `validateAndParseQuizData`
fixes the options of a True/False question to the pair
`["True","False"]`; on a concrete accepted question the normalizer's
output instead carries no options field at all (the code executes
`delete question.options`). -/
theorem c2_counterexample :
    (validateAndParseQuizData "True/False" 1
        [⟨.str "The sky is blue", .bool true, .undef,
          .arr [.str "True", .str "False"]⟩]).map
      (fun qs => qs.map (fun out => out.options)) = some [none] ∧
    some [(none : Option (List String))] ≠ some [some ["True", "False"]] :=
  ⟨by rfl, by simp⟩

/-- C2 (amended): for every raw True/False question with a valid prompt
whose correct-answer field is one of `true`, `false`, `"true"`,
`"false"`, `"1"`, `"0"`, `1`, `0` (or any string lowercasing to
`"true"`), the normalizer produces answer index 0 when the value is
truthy per `tfTruthySpec` and 1 otherwise, and deletes any supplied
options field (the output carries no options; the fixed pair
`["True","False"]` is only attached later by `formatQuizQuestions`). -/
theorem c2_true_false_normalization (idx : Nat) (q : RawQuestion) (s : String)
    (hq : q.question = .str s) (hs : jsTrim s ≠ "")
    (hv : q.correctAnswer ∈ ([.bool true, .bool false, .str "true", .str "false",
        .str "1", .str "0", .num 1, .num 0] : List JSVal) ∨
      ∃ t, q.correctAnswer = .str t ∧ strToLower t = "true") :
    validateQuestion "True/False" idx q =
      .ok ⟨tfText s, .num (if tfTruthySpec q.correctAnswer then 0 else 1),
           explanationOf q.explanation, none⟩ := by
  obtain ⟨qq, ca, ex, op⟩ := q
  simp only at hq hv ⊢
  subst hq
  have hca : isMissingAnswerVal ca = false := by
    rcases hv with h8 | ⟨t, ht, _⟩
    · simp only [List.mem_cons, List.not_mem_nil, or_false] at h8
      rcases h8 with rfl|rfl|rfl|rfl|rfl|rfl|rfl|rfl <;> rfl
    · subst ht; rfl
  have hts : jsTruthyTF ca = tfTruthySpec ca := by
    rcases hv with h8 | ⟨t, ht, _⟩
    · simp only [List.mem_cons, List.not_mem_nil, or_false] at h8
      rcases h8 with rfl|rfl|rfl|rfl|rfl|rfl|rfl|rfl <;> rfl
    · subst ht; rfl
  rw [validateQuestion_tf_eq idx s ca ex op hs hca, hts]

/-- C2 witness: the amended theorem evaluated on a concrete question with
the case-insensitive string answer `"TRUE"`. -/
theorem c2_witness :
    jsTrim "The Earth is round" ≠ "" ∧
    validateQuestion "True/False" 0
        ⟨.str "The Earth is round", .str "TRUE", .null, .undef⟩ =
      .ok ⟨"The Earth is round.", .num 0, "", none⟩ := by
  refine ⟨by decide, ?_⟩
  have h := c2_true_false_normalization 0
    ⟨.str "The Earth is round", .str "TRUE", .null, .undef⟩
    "The Earth is round" rfl (by decide) (Or.inr ⟨"TRUE", rfl, by rfl⟩)
  rw [h]
  rfl

/-- C3: the generate-then-save pipeline persists the negation of the
normalizer's True/False answer index: whenever
`validateAndParseQuizData` canonicalizes a True/False batch, the
`formatQuizQuestions` pass that `saveQuiz` applies before persisting
succeeds and maps every question's index 0 to 1 and index 1 to 0
(`String(0)` is neither `"true"` nor `"1"`, while `String(1)` equals
`"1"`). -/
theorem c3_save_pipeline_flips_tf (numQuestions : Nat) (data : List RawQuestion)
    (qs : List NormQuestion)
    (h : validateAndParseQuizData "True/False" numQuestions data = some qs) :
    ∃ fqs, formatQuizQuestions qs "True/False" = .ok fqs ∧
      List.Forall₂ (fun q fq =>
        (q.correctAnswer = .num 0 ∧ fq.correctAnswer = .num 1) ∨
        (q.correctAnswer = .num 1 ∧ fq.correctAnswer = .num 0)) qs fqs := by
  have hE : validateAndParseQuizDataE "True/False" numQuestions data = .ok qs := by
    unfold validateAndParseQuizData at h
    cases hE : validateAndParseQuizDataE "True/False" numQuestions data with
    | ok v => rw [hE] at h; simp [Except.toOption] at h; rw [h]
    | error e => rw [hE] at h; simp [Except.toOption] at h
  have hqs : ∀ out ∈ qs, out.correctAnswer = .num 0 ∨ out.correctAnswer = .num 1 := by
    unfold validateAndParseQuizDataE at hE
    split at hE
    · exact absurd hE (by simp)
    · exact validateQuestions_tf_answers data 0 qs hE
  refine ⟨_, formatQuizQuestions_tf_eq qs, ?_⟩
  clear h hE
  induction qs with
  | nil => exact .nil
  | cons q rest ih =>
    refine .cons ?_ (ih (fun out ho => hqs out (List.mem_cons_of_mem q ho)))
    rcases hqs q (List.mem_cons_self q rest) with h0 | h1
    · exact Or.inl ⟨h0, by simp only [h0]; rfl⟩
    · exact Or.inr ⟨h1, by simp only [h1]; rfl⟩

/-- C3 witness: the pipeline theorem evaluated on a concrete two-question
True/False batch normalized to indices `[0, 1]`. -/
theorem c3_witness :
    ∃ fqs : List NormQuestion,
      formatQuizQuestions [⟨"The Earth is round.", .num 0, "", none⟩,
        ⟨"The Earth is flat.", .num 1, "", none⟩] "True/False" = .ok fqs ∧
      List.Forall₂ (fun q fq =>
        (q.correctAnswer = .num 0 ∧ fq.correctAnswer = .num 1) ∨
        (q.correctAnswer = .num 1 ∧ fq.correctAnswer = .num 0))
        ([⟨"The Earth is round.", .num 0, "", none⟩,
          ⟨"The Earth is flat.", .num 1, "", none⟩] : List NormQuestion) fqs :=
  c3_save_pipeline_flips_tf 2
    [⟨.str "The Earth is round", .bool true, .undef, .undef⟩,
     ⟨.str "The Earth is flat", .bool false, .undef, .undef⟩]
    [⟨"The Earth is round.", .num 0, "", none⟩,
     ⟨"The Earth is flat.", .num 1, "", none⟩] (by rfl)

/-- The batch loop fails with exactly the error of the first offending
question, every earlier question having validated successfully. -/
theorem validateQuestions_error_first (questionType : String) (data : List RawQuestion) :
    ∀ (k : Nat) (e : String), validateQuestions questionType k data = .error e →
    ∃ i, ∃ hi : i < data.length,
      validateQuestion questionType (k + i) (data.get ⟨i, hi⟩) = .error e ∧
      ∀ j, j < i → ∀ hj : j < data.length,
        (validateQuestion questionType (k + j) (data.get ⟨j, hj⟩)).isOk = true := by
  induction data with
  | nil => intro k e h; simp [validateQuestions] at h
  | cons q rest ih =>
    intro k e h
    simp only [validateQuestions] at h
    cases hv : validateQuestion questionType k q with
    | error e2 =>
      rw [hv] at h
      injection h with h
      subst h
      refine ⟨0, by simp, by simpa using hv, ?_⟩
      intro j hj _
      exact absurd hj (Nat.not_lt_zero j)
    | ok v =>
      rw [hv] at h
      cases hr : validateQuestions questionType (k + 1) rest with
      | error e2 =>
        rw [hr] at h
        injection h with h
        subst h
        obtain ⟨i, hi, h1, h2⟩ := ih (k + 1) e2 hr
        refine ⟨i + 1, Nat.succ_lt_succ hi, ?_, ?_⟩
        · have harith : k + (i + 1) = k + 1 + i := by omega
          rw [harith]
          simpa using h1
        · intro j hj hjlen
          cases j with
          | zero => simp only [Nat.add_zero, List.get]; rw [hv]; rfl
          | succ j2 =>
            have harith : k + (j2 + 1) = k + 1 + j2 := by omega
            rw [harith]
            have := h2 j2 (Nat.lt_of_succ_lt_succ hj) (Nat.lt_of_succ_lt_succ hjlen)
            simpa using this
      | ok vs => rw [hr] at h; exact absurd h (by simp)

/-- C5: when any question of a batch fails a validation check, the
normalizer's loop raises the error of the first offending question (its
message carries that question's one-based index, every earlier question
having validated), and `validateAndParseQuizData` emits no canonicalized
questions at all for the batch — the `catch` maps the failure to `null`. -/
theorem c5_first_error_whole_batch_fails (questionType : String) (numQuestions : Nat)
    (data : List RawQuestion) (e : String) :
    (validateAndParseQuizDataE questionType numQuestions data = .error e →
      validateAndParseQuizData questionType numQuestions data = none) ∧
    (data.length = numQuestions →
      validateAndParseQuizDataE questionType numQuestions data = .error e →
      ∃ i, ∃ hi : i < data.length,
        validateQuestion questionType i (data.get ⟨i, hi⟩) = .error e ∧
        ∀ j, j < i → ∀ hj : j < data.length,
          (validateQuestion questionType j (data.get ⟨j, hj⟩)).isOk = true) := by
  constructor
  · intro h
    unfold validateAndParseQuizData
    rw [h]
    rfl
  · intro hlen h
    unfold validateAndParseQuizDataE at h
    rw [if_neg (by omega)] at h
    simpa using validateQuestions_error_first questionType data 0 e h

/-- The spec's example batch: one Fill-in-the-Blanks question whose
prompt contains two `___` blank markers. -/
def twoBlankBatch : List RawQuestion :=
  [⟨.str "Capital of France is ___ and ___", .num 1, .undef,
    .arr [.str "Paris", .str "London", .str "Berlin", .str "Madrid"]⟩]

/-- C5 witness: the theorem evaluated on the spec's two-blank example —
the failure message identifies question 1 and the reason, and the
normalizer returns `null`. -/
theorem c5_witness :
    validateAndParseQuizDataE "Fill in the Blanks" 1 twoBlankBatch =
      .error "Question 1 should have only one blank (___)" ∧
    validateAndParseQuizData "Fill in the Blanks" 1 twoBlankBatch = none ∧
    (∃ i, ∃ hi : i < twoBlankBatch.length,
      validateQuestion "Fill in the Blanks" i (twoBlankBatch.get ⟨i, hi⟩) =
        .error "Question 1 should have only one blank (___)" ∧
      ∀ j, j < i → ∀ hj : j < twoBlankBatch.length,
        (validateQuestion "Fill in the Blanks" j (twoBlankBatch.get ⟨j, hj⟩)).isOk = true) :=
  ⟨by rfl,
   (c5_first_error_whole_batch_fails "Fill in the Blanks" 1 twoBlankBatch
      "Question 1 should have only one blank (___)").1 (by rfl),
   (c5_first_error_whole_batch_fails "Fill in the Blanks" 1 twoBlankBatch
      "Question 1 should have only one blank (___)").2 (by rfl) (by rfl)⟩


/-- An `Except` value with `isOk` set carries an `ok` payload. -/
theorem exceptIsOk_exists {ε α : Type} (e : Except ε α) (h : e.isOk = true) :
    ∃ a, e = .ok a := by
  cases e with
  | ok a => exact ⟨a, rfl⟩
  | error e2 => simp [Except.isOk, Except.toBool] at h

/-- Full characterization of an accepted MCQ / Fill-in-the-Blanks
question: the exact shape of the canonical output and the facts the
acceptance implies about the raw input. -/
theorem validateQuestion_mcq_fitb_ok_shape (questionType : String) (idx : Nat)
    (q : RawQuestion)
    (hqt : questionType = "MCQ" ∨ questionType = "Fill in the Blanks")
    (out : NormQuestion) (h : validateQuestion questionType idx q = .ok out) :
    ∃ s xs i,
      q.question = .str s ∧ out.question = s ∧
      q.options = .arr xs ∧
      out.options = some (xs.map (fun o => jsTrim (JSVal.jsToString o))) ∧
      xs.length = 4 ∧
      (xs.map (fun o => jsTrim (JSVal.jsToString o))).Nodup ∧
      (∀ o ∈ xs.map (fun o => jsTrim (JSVal.jsToString o)), o ≠ "") ∧
      out.correctAnswer = .num i ∧
      parseIntJS (JSVal.jsToString q.correctAnswer) = some i ∧
      0 ≤ i ∧ i ≤ 3 ∧
      out.explanation = explanationOf q.explanation ∧
      (questionType = "Fill in the Blanks" → countBlanks s.data = 1) := by
  have hne_tf : ¬(questionType = "True/False") := by
    rcases hqt with rfl | rfl <;> decide
  obtain ⟨qq, ca, ex, op⟩ := q
  cases qq with
  | str s =>
    by_cases hs : jsTrim s = ""
    · simp [validateQuestion, hs] at h
    · by_cases hmiss : isMissingAnswerVal ca = true
      · simp [validateQuestion, hs, hmiss] at h
      · simp only [validateQuestion, if_neg hs, hmiss, Bool.false_eq_true, if_false,
          if_neg hne_tf] at h
        cases op with
        | arr xs =>
          simp only at h
          split at h
          · exact absurd h (by simp)
          rename_i hlen4
          split at h
          · exact absurd h (by simp)
          rename_i hemp
          split at h
          · exact absurd h (by simp)
          rename_i hnd
          split at h
          · exact absurd h (by simp)
          rename_i hbl1
          split at h
          · exact absurd h (by simp)
          rename_i hbl2
          split at h
          · exact absurd h (by simp)
          rename_i i heq
          split at h
          · exact absurd h (by simp)
          rename_i hrange
          injection h with h
          subst h
          refine ⟨s, xs, i, rfl, rfl, rfl, rfl, by omega, by simpa using hnd, ?_,
            rfl, heq, by omega, by omega, rfl, ?_⟩
          · intro o ho hoeq
            apply hemp
            rw [List.any_eq_true]
            refine ⟨o, ho, ?_⟩
            rw [hoeq]
            rfl
          · intro hf
            rw [hf] at hbl1 hbl2
            simp at hbl1 hbl2
            have := countBlanks_pos s.data hbl1
            omega
        | bool b => exact absurd h (by simp)
        | str s2 => exact absurd h (by simp)
        | num n => exact absurd h (by simp)
        | null => exact absurd h (by simp)
        | undef => exact absurd h (by simp)
  | bool b => simp [validateQuestion] at h
  | num n => simp [validateQuestion] at h
  | null => simp [validateQuestion] at h
  | undef => simp [validateQuestion] at h
  | arr xs => simp [validateQuestion] at h



/-- C4: every MCQ or Fill-in-the-Blanks question accepted by the
normalizer has exactly 4 options, each non-empty after trimming, all
pairwise distinct, and a correct answer coerced by `parseInt` to an index
in `[0,3]`; a question is rejected when the options field is absent or
not an array, has length other than 4, contains an empty or duplicate
option (after trimming), when the answer is not parseable as an integer
in `[0,3]`, and, for Fill in the Blanks, when the prompt does not contain
exactly one `___` marker. -/
theorem c4_mcq_fitb_validation (questionType : String) (idx : Nat) (q : RawQuestion)
    (hqt : questionType = "MCQ" ∨ questionType = "Fill in the Blanks") :
    (∀ out, validateQuestion questionType idx q = .ok out →
      ∃ opts i, out.options = some opts ∧ opts.length = 4 ∧ opts.Nodup ∧
        (∀ o ∈ opts, o ≠ "") ∧ out.correctAnswer = .num i ∧
        parseIntJS (JSVal.jsToString q.correctAnswer) = some i ∧ 0 ≤ i ∧ i ≤ 3 ∧
        (questionType = "Fill in the Blanks" → countBlanks out.question.data = 1)) ∧
    ((∀ xs, q.options ≠ .arr xs) → (validateQuestion questionType idx q).isOk = false) ∧
    (∀ xs, q.options = .arr xs → xs.length ≠ 4 →
      (validateQuestion questionType idx q).isOk = false) ∧
    (∀ xs, q.options = .arr xs → (∃ o ∈ xs, jsTrim (JSVal.jsToString o) = "") →
      (validateQuestion questionType idx q).isOk = false) ∧
    (∀ xs, q.options = .arr xs → ¬(xs.map (fun o => jsTrim (JSVal.jsToString o))).Nodup →
      (validateQuestion questionType idx q).isOk = false) ∧
    ((∀ i, parseIntJS (JSVal.jsToString q.correctAnswer) = some i → i < 0 ∨ 3 < i) →
      (validateQuestion questionType idx q).isOk = false) ∧
    (questionType = "Fill in the Blanks" →
      (∀ s, q.question = .str s → countBlanks s.data ≠ 1) →
      (validateQuestion questionType idx q).isOk = false) := by
  have shape := validateQuestion_mcq_fitb_ok_shape questionType idx q hqt
  have notOk : ∀ (P : Prop),
      (∀ out, validateQuestion questionType idx q = .ok out → P) → ¬ P →
      (validateQuestion questionType idx q).isOk = false := by
    intro P hp hnp
    cases hok : (validateQuestion questionType idx q).isOk with
    | false => rfl
    | true =>
      obtain ⟨out, hout⟩ := exceptIsOk_exists _ hok
      exact absurd (hp out hout) hnp
  refine ⟨?_, ?_, ?_, ?_, ?_, ?_, ?_⟩
  · intro out h
    obtain ⟨s, xs, i, _, hq2, _, hopts, hlen, hnd, hne, hca, hparse, h0, h3, _, hcb⟩ :=
      shape out h
    refine ⟨_, i, hopts, by simpa using hlen, hnd, hne, hca, hparse, h0, h3, ?_⟩
    intro hf
    rw [hq2]
    exact hcb hf
  · intro hno
    refine notOk (∃ xs, q.options = .arr xs) ?_ (by simpa using hno)
    intro out h
    obtain ⟨s, xs, i, _, _, hop, _⟩ := shape out h
    exact ⟨xs, hop⟩
  · intro xs hop hlen
    refine notOk (∃ ys, q.options = .arr ys ∧ ys.length = 4) ?_ ?_
    · intro out h
      obtain ⟨s, ys, i, _, _, hop2, _, hlen2, _⟩ := shape out h
      exact ⟨ys, hop2, hlen2⟩
    · rintro ⟨ys, hop2, hlen2⟩
      rw [hop] at hop2
      injection hop2 with hxy
      subst hxy
      exact hlen hlen2
  · intro xs hop ⟨o, ho, hoe⟩
    refine notOk (∀ o2 ∈ xs.map (fun o2 => jsTrim (JSVal.jsToString o2)), o2 ≠ "") ?_ ?_
    · intro out h
      obtain ⟨s, ys, i, _, _, hop2, _, _, _, hne, _⟩ := shape out h
      rw [hop] at hop2
      injection hop2 with hxy
      subst hxy
      exact hne
    · intro hall
      exact hall (jsTrim (JSVal.jsToString o)) (List.mem_map_of_mem _ ho) hoe
  · intro xs hop hnd
    refine notOk ((xs.map (fun o => jsTrim (JSVal.jsToString o))).Nodup) ?_ hnd
    intro out h
    obtain ⟨s, ys, i, _, _, hop2, _, _, hnd2, _⟩ := shape out h
    rw [hop] at hop2
    injection hop2 with hxy
    subst hxy
    exact hnd2
  · intro hbad
    refine notOk (∃ i, parseIntJS (JSVal.jsToString q.correctAnswer) = some i ∧
      0 ≤ i ∧ i ≤ 3) ?_ ?_
    · intro out h
      obtain ⟨s, ys, i, _, _, _, _, _, _, _, _, hparse, h0, h3, _⟩ := shape out h
      exact ⟨i, hparse, h0, h3⟩
    · rintro ⟨i, hparse, h0, h3⟩
      rcases hbad i hparse with h | h <;> omega
  · intro hf hbad
    refine notOk (∃ s, q.question = .str s ∧ countBlanks s.data = 1) ?_ ?_
    · intro out h
      obtain ⟨s, ys, i, hq1, _, _, _, _, _, _, _, _, _, _, _, hcb⟩ := shape out h
      exact ⟨s, hq1, hcb hf⟩
    · rintro ⟨s, hq1, hcb⟩
      exact hbad s hq1 hcb

/-- A concrete accepted Fill-in-the-Blanks question (with one option
needing trimming). -/
def c4q : RawQuestion :=
  ⟨.str "The capital of France is ___", .str "1", .undef,
   .arr [.str " Paris", .str "London", .str "Berlin", .str "Madrid"]⟩

/-- The canonical output for `c4q`. -/
def c4out : NormQuestion :=
  ⟨"The capital of France is ___", .num 1, "",
   some ["Paris", "London", "Berlin", "Madrid"]⟩

/-- C4 witness: the theorem's acceptance part evaluated on `c4q`, and
its blank-count rejection part on a prompt without a blank. -/
theorem c4_witness :
    validateQuestion "Fill in the Blanks" 0 c4q = .ok c4out ∧
    (∃ opts i, c4out.options = some opts ∧ opts.length = 4 ∧ opts.Nodup ∧
      (∀ o ∈ opts, o ≠ "") ∧ c4out.correctAnswer = .num i ∧
      parseIntJS (JSVal.jsToString c4q.correctAnswer) = some i ∧ 0 ≤ i ∧ i ≤ 3 ∧
      ("Fill in the Blanks" = "Fill in the Blanks" →
        countBlanks c4out.question.data = 1)) ∧
    (validateQuestion "Fill in the Blanks" 0
      ⟨.str "No blanks here", .str "1", .undef,
       .arr [.str "a", .str "b", .str "c", .str "d"]⟩).isOk = false :=
  ⟨by rfl,
   (c4_mcq_fitb_validation "Fill in the Blanks" 0 c4q (Or.inr rfl)).1 c4out (by rfl),
   (c4_mcq_fitb_validation "Fill in the Blanks" 0
      ⟨.str "No blanks here", .str "1", .undef,
       .arr [.str "a", .str "b", .str "c", .str "d"]⟩
      (Or.inr rfl)).2.2.2.2.2.2 rfl (by
        intro s hs
        injection hs with h2
        subst h2
        decide)⟩



/-- C8: `POST /api/quiz-results` and `POST /api/quiz-history` verify
that the referenced quiz exists and then perform their single insert
inside the transaction; on every non-201 outcome (schema validation
failure, missing quiz, or an injected database failure rolled back by the
`catch`) the store is completely unchanged, and on 201 exactly the one
new row is appended while the other tables are untouched. -/
theorem c8_transactional_inserts (userId : String) (resultBody : QuizResultReq)
    (historyBody : QuizHistoryReq) (now : Nat) (insertFails : Bool) (db : DB) :
    ((recordResult userId resultBody now insertFails db).1 ≠ 201 →
      (recordResult userId resultBody now insertFails db).2 = db) ∧
    ((recordResult userId resultBody now insertFails db).1 = 201 →
      (∃ q ∈ db.quizzes, (q.id : Int) = resultBody.quizId) ∧
      (recordResult userId resultBody now insertFails db).2.quizResults =
        db.quizResults ++
          [⟨db.nextResultId, userId, resultBody.quizId, resultBody.score,
            resultBody.totalQuestions, resultBody.userAnswers,
            resultBody.timeTaken, now⟩] ∧
      (recordResult userId resultBody now insertFails db).2.quizzes = db.quizzes ∧
      (recordResult userId resultBody now insertFails db).2.quizHistory =
        db.quizHistory) ∧
    ((recordHistory userId historyBody insertFails db).1 ≠ 201 →
      (recordHistory userId historyBody insertFails db).2 = db) ∧
    ((recordHistory userId historyBody insertFails db).1 = 201 →
      (∃ q ∈ db.quizzes, (q.id : Int) = historyBody.quizId) ∧
      (recordHistory userId historyBody insertFails db).2.quizHistory =
        db.quizHistory ++
          [⟨db.nextHistoryId, userId, historyBody.quizId, historyBody.promptUsed,
            historyBody.generationParameters⟩] ∧
      (recordHistory userId historyBody insertFails db).2.quizzes = db.quizzes ∧
      (recordHistory userId historyBody insertFails db).2.quizResults =
        db.quizResults) := by
  refine ⟨?_, ?_, ?_, ?_⟩
  · by_cases h1 : quizResultSchemaValid resultBody = true <;>
      by_cases h2 : db.quizzes.any (fun q => (q.id : Int) == resultBody.quizId) = true <;>
      cases insertFails <;>
      simp [recordResult, h1, h2]
  · by_cases h1 : quizResultSchemaValid resultBody = true <;>
      by_cases h2 : db.quizzes.any (fun q => (q.id : Int) == resultBody.quizId) = true <;>
      cases insertFails <;>
      simp [recordResult, h1, h2]
    · obtain ⟨q, hq, hbeq⟩ := List.any_eq_true.mp h2
      exact ⟨q, hq, by exact_mod_cast eq_of_beq hbeq⟩
  · by_cases h1 : quizHistorySchemaValid historyBody = true <;>
      by_cases h2 : db.quizzes.any (fun q => (q.id : Int) == historyBody.quizId) = true <;>
      cases insertFails <;>
      simp [recordHistory, h1, h2]
  · by_cases h1 : quizHistorySchemaValid historyBody = true <;>
      by_cases h2 : db.quizzes.any (fun q => (q.id : Int) == historyBody.quizId) = true <;>
      cases insertFails <;>
      simp [recordHistory, h1, h2]
    · obtain ⟨q, hq, hbeq⟩ := List.any_eq_true.mp h2
      exact ⟨q, hq, by exact_mod_cast eq_of_beq hbeq⟩



/-- A store holding one quiz (id 1, owned by alice) for the C8
witness. -/
def c8Db : DB :=
  ⟨[⟨1, "alice", "T", some "t", 1, "Easy", "MCQ", "english",
     [⟨"Q1", .num 1, .str "e", ["a", "b"]⟩], 5⟩], [], [], 2, 1, 1⟩

/-- C8 witness: the theorem's error branches evaluated on a concrete
invalid result body (negative score) and a history body referencing a
missing quiz id. -/
theorem c8_witness :
    ((recordResult "alice" ⟨1, -1, 1, [], 0⟩ 20 false c8Db).1 ≠ 201) ∧
    (recordResult "alice" ⟨1, -1, 1, [], 0⟩ 20 false c8Db).2 = c8Db ∧
    ((recordHistory "alice" ⟨2, "p", ⟨"t", "Easy", 1, "MCQ", none⟩⟩ false c8Db).1 ≠ 201) ∧
    (recordHistory "alice" ⟨2, "p", ⟨"t", "Easy", 1, "MCQ", none⟩⟩ false c8Db).2 = c8Db :=
  ⟨by decide,
   (c8_transactional_inserts "alice" ⟨1, -1, 1, [], 0⟩
      ⟨2, "p", ⟨"t", "Easy", 1, "MCQ", none⟩⟩ 20 false c8Db).1 (by decide),
   by decide,
   (c8_transactional_inserts "alice" ⟨1, -1, 1, [], 0⟩
      ⟨2, "p", ⟨"t", "Easy", 1, "MCQ", none⟩⟩ 20 false c8Db).2.2.1 (by decide)⟩

/-- C9: for a user with zero quiz results, `GET /api/statistics`
returns every numeric aggregate as the number zero (never null/NaN),
`"None"` for both the topics and difficulty fields, and an empty monthly
series; averages are `score/total_questions*100` with zero-question
totals treated as zero, so the empty aggregate collapses to 0. -/
theorem c9_statistics_zero_results (userId : String) (db : DB)
    (h : db.quizResults.filter (fun r => r.userId == userId) = []) :
    getStatistics userId db = ⟨0, 0, 0, 0, none, none, "None", "None", []⟩ := by
  unfold getStatistics
  rw [h]
  simp [processQuizStatistics, jsSetOf, sortDescBy, maxOrZero, minNat, maxNat]
  all_goals intro hc
  all_goals exact absurd rfl hc

/-- C9 witness: the theorem evaluated for a user with no results in a
store that does hold another user's results. -/
theorem c9_witness :
    getStatistics "ghost"
      ⟨[⟨1, "alice", "T", some "t", 1, "Easy", "MCQ", "english",
         [⟨"Q1", .num 1, .str "e", ["a", "b"]⟩], 5⟩],
       [⟨1, "alice", 1, 1, 1, [], 0, 100⟩], [], 2, 2, 1⟩ =
      ⟨0, 0, 0, 0, none, none, "None", "None", []⟩ :=
  c9_statistics_zero_results "ghost"
    ⟨[⟨1, "alice", "T", some "t", 1, "Easy", "MCQ", "english",
       [⟨"Q1", .num 1, .str "e", ["a", "b"]⟩], 5⟩],
     [⟨1, "alice", 1, 1, 1, [], 0, 100⟩], [], 2, 2, 1⟩ (by rfl)



/-- C7: `createQuiz` responds 400 and performs no insert whenever the
declared `numQuestions` differs from the length of the submitted
questions array, or any question of an MCQ / Fill-in-the-Blanks quiz has
fewer than 2 options (the Joi schema requires at least 2 options for
every question, so such a request already fails validation). -/
theorem c7_create_quiz_validation (userId : String) (body : QuizReq) (now : Nat)
    (db : DB)
    (h : body.numQuestions ≠ (body.questions.length : Int) ∨
      ((body.questionType = "MCQ" ∨ body.questionType = "Fill in the Blanks") ∧
        ∃ q ∈ body.questions, q.options.length < 2)) :
    (createQuiz userId body now db).1.1 = 400 ∧
    (createQuiz userId body now db).2 = db := by
  by_cases hjoi : quizSchemaValid body = true
  · have hopts : ∀ q ∈ body.questions, 2 ≤ q.options.length := by
      intro q hq
      unfold quizSchemaValid at hjoi
      simp only [Bool.and_eq_true] at hjoi
      have hall := hjoi.2
      have hz := List.all_eq_true.mp hall q hq
      unfold questionReqValid at hz
      simp only [Bool.and_eq_true] at hz
      exact of_decide_eq_true hz.1.2
    rcases h with hmis | ⟨hqt, q, hq, hlen⟩
    · by_cases hz : body.questions.length = 0
      · simp [createQuiz, hjoi, hz]
      · simp [createQuiz, hjoi, hz, hmis]
    · exact absurd (hopts q hq) (by omega)
  · simp [createQuiz, hjoi]

/-- C7 witness: the theorem evaluated on the spec's example —
`numQuestions = 3` with 2 submitted questions — against an empty
store. -/
theorem c7_witness :
    ((3 : Int) ≠ (([⟨"Q1", .num 1, .str "e", ["a", "b"]⟩,
        ⟨"Q2", .num 0, .str "e", ["c", "d"]⟩] : List QuestionReq).length : Int) ∨
      (("MCQ" = "MCQ" ∨ "MCQ" = "Fill in the Blanks") ∧
        ∃ q ∈ ([⟨"Q1", .num 1, .str "e", ["a", "b"]⟩,
          ⟨"Q2", .num 0, .str "e", ["c", "d"]⟩] : List QuestionReq),
          q.options.length < 2)) ∧
    (createQuiz "alice"
      ⟨"T", none, 3, "Easy", "MCQ", none,
       [⟨"Q1", .num 1, .str "e", ["a", "b"]⟩, ⟨"Q2", .num 0, .str "e", ["c", "d"]⟩]⟩
      10 ⟨[], [], [], 1, 1, 1⟩).1.1 = 400 ∧
    (createQuiz "alice"
      ⟨"T", none, 3, "Easy", "MCQ", none,
       [⟨"Q1", .num 1, .str "e", ["a", "b"]⟩, ⟨"Q2", .num 0, .str "e", ["c", "d"]⟩]⟩
      10 ⟨[], [], [], 1, 1, 1⟩).2 = ⟨[], [], [], 1, 1, 1⟩ := by
  refine ⟨Or.inl (by decide), ?_, ?_⟩
  · exact (c7_create_quiz_validation "alice"
      ⟨"T", none, 3, "Easy", "MCQ", none,
       [⟨"Q1", .num 1, .str "e", ["a", "b"]⟩, ⟨"Q2", .num 0, .str "e", ["c", "d"]⟩]⟩
      10 ⟨[], [], [], 1, 1, 1⟩ (Or.inl (by decide))).1
  · exact (c7_create_quiz_validation "alice"
      ⟨"T", none, 3, "Easy", "MCQ", none,
       [⟨"Q1", .num 1, .str "e", ["a", "b"]⟩, ⟨"Q2", .num 0, .str "e", ["c", "d"]⟩]⟩
      10 ⟨[], [], [], 1, 1, 1⟩ (Or.inl (by decide))).2



/-- Characterization of a successful `createQuiz`: the new id is the
next serial id and the store gains exactly the one new row. -/
theorem createQuiz_ok (userId : String) (body : QuizReq) (now : Nat) (db : DB)
    (newId : Nat) (hcreate : (createQuiz userId body now db).1 = (201, some newId)) :
    newId = db.nextQuizId ∧
    (createQuiz userId body now db).2 = { db with
      quizzes := db.quizzes ++
        [⟨db.nextQuizId, userId, jsTrim body.title,
          body.topic.map (fun t => jsTrim t), body.numQuestions, body.difficulty,
          body.questionType, body.language.getD "english", body.questions, now⟩],
      nextQuizId := db.nextQuizId + 1 } := by
  by_cases h1 : quizSchemaValid body = true
  · by_cases h2 : body.questions.length = 0
    · simp [createQuiz, h1, h2] at hcreate
    · by_cases h3 : body.numQuestions ≠ (body.questions.length : Int)
      · simp [createQuiz, h1, h2, h3] at hcreate
      · by_cases h4 : (body.questionType == "MCQ" &&
            body.questions.any (fun q => decide (q.options.length < 2))) = true
        · simp [createQuiz, h1, h2, h3, h4] at hcreate
        · simp [createQuiz, h1, h2, h3, h4] at hcreate ⊢
          exact hcreate.symm
  · simp [createQuiz, h1] at hcreate



/-- C6 (amended): a quiz created via `createQuiz` and fetched via
`getQuizDetail` by the same owner returns a question sequence of the same
length and order whose options and correctAnswer are identical to the
submitted values; the explanation is identical only when the submitted
explanation was truthy (a non-empty string) and is otherwise replaced by
the literal `"No explanation provided"`. -/
theorem c6_round_trip (userId : String) (body : QuizReq) (now : Nat) (db : DB)
    (newId : Nat)
    (hfresh : ∀ q ∈ db.quizzes, q.id ≠ db.nextQuizId)
    (hcreate : (createQuiz userId body now db).1 = (201, some newId)) :
    ∃ d, getQuizDetail userId newId (createQuiz userId body now db).2 = some d ∧
      d.questions = body.questions.map (fun x =>
        ⟨x.question, x.options, x.correctAnswer,
         if JSVal.jsTruthy x.explanation then x.explanation
         else .str "No explanation provided"⟩) ∧
      d.questions.length = body.questions.length ∧
      (∀ j, ∀ hj : j < body.questions.length, ∀ hj2 : j < d.questions.length,
        (d.questions.get ⟨j, hj2⟩).options = (body.questions.get ⟨j, hj⟩).options ∧
        (d.questions.get ⟨j, hj2⟩).correctAnswer =
          (body.questions.get ⟨j, hj⟩).correctAnswer ∧
        (d.questions.get ⟨j, hj2⟩).explanation =
          (if JSVal.jsTruthy (body.questions.get ⟨j, hj⟩).explanation
           then (body.questions.get ⟨j, hj⟩).explanation
           else .str "No explanation provided")) := by
  obtain ⟨hid, hdb⟩ := createQuiz_ok userId body now db newId hcreate
  subst hid
  rw [hdb]
  unfold getQuizDetail
  rw [List.find?_append]
  have hpre : db.quizzes.find?
      (fun q => q.id == db.nextQuizId && q.userId == userId) = none := by
    rw [List.find?_eq_none]
    intro q hq
    have := hfresh q hq
    simp [this]
  rw [hpre]
  simp only [Option.none_orElse]
  have hsingle : List.find? (fun q => q.id == db.nextQuizId && q.userId == userId)
      [(⟨db.nextQuizId, userId, jsTrim body.title,
        body.topic.map (fun t => jsTrim t), body.numQuestions, body.difficulty,
        body.questionType, body.language.getD "english", body.questions, now⟩ : QuizRow)] =
      some ⟨db.nextQuizId, userId, jsTrim body.title,
        body.topic.map (fun t => jsTrim t), body.numQuestions, body.difficulty,
        body.questionType, body.language.getD "english", body.questions, now⟩ := by
    simp [List.find?]
  rw [hsingle]
  refine ⟨_, rfl, rfl, by simp, ?_⟩
  intro j hj hj2
  simp



/-- C6 counterexample: a quiz created with an (schema-accepted) empty
explanation string is fetched back with explanation
`"No explanation provided"`, not the submitted `""` — the round trip is
not the identity on explanations. -/
theorem c6_counterexample :
    (getQuizDetail "alice" 1
      (createQuiz "alice"
        ⟨"T", none, 1, "Easy", "MCQ", none, [⟨"Q1", .num 1, .str "", ["a", "b"]⟩]⟩
        10 ⟨[], [], [], 1, 1, 1⟩).2).map
      (fun d => d.questions.map (fun x => x.explanation)) =
      some [.str "No explanation provided"] ∧
    JSVal.str "No explanation provided" ≠ JSVal.str "" :=
  ⟨by rfl, by intro h; injection h with h2; exact absurd h2 (by decide)⟩

/-- A request with a truthy explanation, for the C6 witness. -/
def c6Body : QuizReq :=
  ⟨"T", none, 1, "Easy", "MCQ", none, [⟨"Q1", .num 1, .str "why", ["a", "b"]⟩]⟩

/-- The empty store, for the C6 witness. -/
def c6Db : DB := ⟨[], [], [], 1, 1, 1⟩

/-- C6 witness: the amended round-trip theorem evaluated on a concrete
creation against the empty store. -/
theorem c6_witness :
    (∀ q ∈ c6Db.quizzes, q.id ≠ c6Db.nextQuizId) ∧
    (createQuiz "alice" c6Body 10 c6Db).1 = (201, some 1) ∧
    (∃ d, getQuizDetail "alice" 1 (createQuiz "alice" c6Body 10 c6Db).2 = some d ∧
      d.questions = c6Body.questions.map (fun x =>
        ⟨x.question, x.options, x.correctAnswer,
         if JSVal.jsTruthy x.explanation then x.explanation
         else .str "No explanation provided"⟩) ∧
      d.questions.length = c6Body.questions.length ∧
      (∀ j, ∀ hj : j < c6Body.questions.length, ∀ hj2 : j < d.questions.length,
        (d.questions.get ⟨j, hj2⟩).options = (c6Body.questions.get ⟨j, hj⟩).options ∧
        (d.questions.get ⟨j, hj2⟩).correctAnswer =
          (c6Body.questions.get ⟨j, hj⟩).correctAnswer ∧
        (d.questions.get ⟨j, hj2⟩).explanation =
          (if JSVal.jsTruthy (c6Body.questions.get ⟨j, hj⟩).explanation
           then (c6Body.questions.get ⟨j, hj⟩).explanation
           else .str "No explanation provided"))) :=
  ⟨by simp [c6Db], by rfl,
   c6_round_trip "alice" c6Body 10 c6Db 1 (by simp [c6Db]) (by rfl)⟩



/-- Membership in a descending insertion. -/
theorem mem_insertDescBy {α : Type} (key : α → Nat) (x y : α) (l : List α) :
    y ∈ insertDescBy key x l ↔ y = x ∨ y ∈ l := by
  induction l with
  | nil => simp [insertDescBy]
  | cons z zs ih =>
    unfold insertDescBy
    by_cases h : key z ≤ key x
    · simp [h]
    · simp only [if_neg h, List.mem_cons, ih]
      tauto

/-- Descending insertion preserves descending order. -/
theorem sorted_insertDescBy {α : Type} (key : α → Nat) (x : α) (l : List α)
    (h : l.Pairwise (fun a b => key b ≤ key a)) :
    (insertDescBy key x l).Pairwise (fun a b => key b ≤ key a) := by
  induction l with
  | nil => simp [insertDescBy]
  | cons z zs ih =>
    rw [List.pairwise_cons] at h
    obtain ⟨hz, hzs⟩ := h
    unfold insertDescBy
    by_cases hk : key z ≤ key x
    · rw [if_pos hk, List.pairwise_cons]
      constructor
      · intro b hb
        rcases List.mem_cons.mp hb with rfl | hb2
        · exact hk
        · exact le_trans (hz b hb2) hk
      · rw [List.pairwise_cons]
        exact ⟨hz, hzs⟩
    · rw [if_neg hk, List.pairwise_cons]
      constructor
      · intro b hb
        rcases (mem_insertDescBy key x b zs).mp hb with rfl | hb2
        · omega
        · exact hz b hb2
      · exact ih hzs

/-- `sortDescBy` sorts descending by the key. -/
theorem sorted_sortDescBy {α : Type} (key : α → Nat) (l : List α) :
    (sortDescBy key l).Pairwise (fun a b => key b ≤ key a) := by
  induction l with
  | nil => simp [sortDescBy]
  | cons x xs ih => exact sorted_insertDescBy key x _ ih

/-- `sortDescBy` preserves membership. -/
theorem mem_sortDescBy {α : Type} (key : α → Nat) (l : List α) (y : α) :
    y ∈ sortDescBy key l ↔ y ∈ l := by
  induction l with
  | nil => simp [sortDescBy]
  | cons x xs ih =>
    unfold sortDescBy
    rw [mem_insertDescBy, ih, List.mem_cons]

/-- C10: `listQuizzes` returns only the owner's quizzes, ordered by
creation time descending, with at most `limit` rows (offset
`(page-1)*limit`), reports the owner's total, and `hasMore` holds exactly
when `page < ceil(total/limit)`, i.e. when `page*limit < total`. -/
theorem c10_list_quizzes_pagination (userId : String) (page limit : Nat) (db : DB)
    (hp : 1 ≤ page) (hl : 1 ≤ limit) :
    (listQuizzes userId page limit db).quizzes.length ≤ limit ∧
    (∀ lq ∈ (listQuizzes userId page limit db).quizzes, lq.row.userId = userId) ∧
    (listQuizzes userId page limit db).quizzes.Pairwise
      (fun a b => b.row.createdAt ≤ a.row.createdAt) ∧
    (listQuizzes userId page limit db).totalQuizzes =
      (db.quizzes.filter (fun q => q.userId == userId)).length ∧
    ((listQuizzes userId page limit db).hasMore = true ↔
      page * limit < (listQuizzes userId page limit db).totalQuizzes) := by
  simp only [listQuizzes]
  refine ⟨?_, ?_, ?_, trivial, ?_⟩
  · rw [List.length_map, List.length_take]
    exact Nat.min_le_left _ _
  · intro lq hlq
    rw [List.mem_map] at hlq
    obtain ⟨q, hq, rfl⟩ := hlq
    have hq2 : q ∈ sortDescBy (fun q => q.createdAt)
        (db.quizzes.filter (fun q => q.userId == userId)) :=
      List.mem_of_mem_drop (List.mem_of_mem_take hq)
    rw [mem_sortDescBy] at hq2
    have hmem := List.mem_filter.mp hq2
    simpa using hmem.2
  · rw [List.pairwise_map]
    have hs := sorted_sortDescBy (fun q => q.createdAt)
      (db.quizzes.filter (fun q => q.userId == userId))
    have hsub : List.Sublist
        (((sortDescBy (fun q => q.createdAt)
          (db.quizzes.filter (fun q => q.userId == userId))).drop
            ((page - 1) * limit)).take limit)
        (sortDescBy (fun q => q.createdAt)
          (db.quizzes.filter (fun q => q.userId == userId))) :=
      (List.take_sublist _ _).trans (List.drop_sublist _ _)
    exact (hs.sublist hsub).imp (fun hab => hab)
  · rw [decide_eq_true_eq, Nat.lt_iff_add_one_le, Nat.le_div_iff_mul_le hl,
      Nat.succ_mul]
    generalize (db.quizzes.filter (fun q => q.userId == userId)).length = T
    generalize page * limit = M
    omega

/-- A store holding a single quiz owned by alice, queried with bob's
identity in the C1 evaluation. -/
def aliceDb : DB :=
  ⟨[⟨1, "alice", "Geography", some "Geo", 1, "Easy", "MCQ", "english",
     [⟨"Q1", .num 1, .str "e", ["a", "b", "c", "d"]⟩], 5⟩], [], [], 2, 1, 1⟩

/-- C1: evaluation of the backend at the failing input. The owner-scoped
`GET /api/quizzes/:id` does return 404 (`none`) to another user, but
`GET /api/quizzes/:id/take` returns the full question/options content of
alice's quiz to bob (its query has no `user_id` filter), and
`POST /api/quiz-results` accepts alice's quiz id from bob and inserts a
row — contradicting the claim that every read or write referencing the
quiz behaves as if it does not exist for non-owners. -/
theorem c1_cross_user_evaluation :
    getQuizDetail "bob" 1 aliceDb = none ∧
    takeQuiz "bob" 1 aliceDb =
      some ⟨1, "Geography", some "Geo", 1, "Easy", "MCQ",
            [⟨"Q1", ["a", "b", "c", "d"]⟩]⟩ ∧
    (recordResult "bob" ⟨1, 1, 1, [⟨0, .num 1, true⟩], 0⟩ 20 false aliceDb).1 = 201 ∧
    (recordResult "bob" ⟨1, 1, 1, [⟨0, .num 1, true⟩], 0⟩ 20 false
      aliceDb).2.quizResults.length = 1 :=
  ⟨by rfl, by rfl, by rfl, by rfl⟩



/-- A store with exactly 15 quizzes owned by `"u"`, for the spec's
pagination example. -/
def c10Db : DB :=
  ⟨(List.range 15).map (fun i =>
      ⟨i + 1, "u", "T", none, 1, "Easy", "MCQ", "english",
       [⟨"Q1", .num 1, .str "e", ["a", "b"]⟩], i⟩),
   [], [], 16, 1, 1⟩

/-- C10 witness: the theorem evaluated at `page = 2`, `limit = 10` on
an owner with exactly 15 quizzes — 5 rows come back and `hasMore` is
false. -/
theorem c10_witness :
    (1 : Nat) ≤ 2 ∧ (1 : Nat) ≤ 10 ∧
    ((listQuizzes "u" 2 10 c10Db).quizzes.length ≤ 10 ∧
     (∀ lq ∈ (listQuizzes "u" 2 10 c10Db).quizzes, lq.row.userId = "u") ∧
     (listQuizzes "u" 2 10 c10Db).quizzes.Pairwise
       (fun a b => b.row.createdAt ≤ a.row.createdAt) ∧
     (listQuizzes "u" 2 10 c10Db).totalQuizzes =
       (c10Db.quizzes.filter (fun q => q.userId == "u")).length ∧
     ((listQuizzes "u" 2 10 c10Db).hasMore = true ↔
       2 * 10 < (listQuizzes "u" 2 10 c10Db).totalQuizzes)) ∧
    (listQuizzes "u" 2 10 c10Db).quizzes.length = 5 ∧
    (listQuizzes "u" 2 10 c10Db).hasMore = false ∧
    (listQuizzes "u" 2 10 c10Db).totalQuizzes = 15 :=
  ⟨by decide, by decide,
   c10_list_quizzes_pagination "u" 2 10 c10Db (by decide) (by decide),
   by rfl, by rfl, by rfl⟩


end QuizApp
